import Mathlib

/-!
Verification of the Concord Consortium sushi chef (`sushichef.py`).

This file gives a shallow embedding of the script's asset-resolution and
staging pipeline and proves properties of it.  Python dictionaries parsed
from JSON are modelled by the inductive `Json`; Python exceptions are
modelled by `Except PyErr`; the filesystem is modelled by `FS`, a list of
created directories plus a journal of file writes (last write wins); the
network is an oracle record `Http` supplied to the orchestrator.
-/

/-- Python exceptions raised by the modelled code paths. -/
inductive PyErr where
  | keyError
  | typeError
  | attributeError
  | fileExistsError
  | networkError
  | jsonDecodeError
  | indexError
  deriving DecidableEq, Repr

/-- A JSON value as produced by `json.loads` / `response.json()`. -/
inductive Json where
  | null
  | bool (b : Bool)
  | num (n : Int)
  | str (s : String)
  | arr (xs : List Json)
  | obj (kvs : List (String × Json))
  deriving Repr

/-- Dictionary lookup, `d.get(k)` on a parsed-JSON dict (first binding wins). -/
def jlook (kvs : List (String × Json)) (k : String) : Option Json :=
  (kvs.find? (fun p => p.1 == k)).map (fun p => p.2)

/-- Python truthiness of a parsed-JSON value. -/
def truthy : Json → Bool
  | .null => false
  | .bool b => b
  | .num n => n != 0
  | .str s => s != ""
  | .arr xs => !xs.isEmpty
  | .obj kvs => !kvs.isEmpty

/-- Is the value a JSON object (Python dict)? -/
def isObj : Json → Bool
  | .obj _ => true
  | _ => false

/-- Python iteration `for x in v`: lists yield elements, strings yield
one-character strings, dicts yield their keys, everything else raises
`TypeError`. -/
def iterElems : Json → Except PyErr (List Json)
  | .arr xs => .ok xs
  | .str s => .ok (s.data.map (fun c => Json.str (String.mk [c])))
  | .obj kvs => .ok (kvs.map (fun kv => Json.str kv.1))
  | _ => .error .typeError

/-- The `for model in json.get('models', [])` loop body of
`get_asset_paths_from_json`: collect `model['url']` for every element whose
`model.get('url')` is truthy.  A non-dict element has no `.get` attribute and
raises `AttributeError`. -/
def urlsLoop : List Json → Except PyErr (List Json)
  | [] => .ok []
  | Json.obj mkvs :: rest =>
    match urlsLoop rest with
    | .error e => .error e
    | .ok tail =>
      if truthy ((jlook mkvs "url").getD Json.null) then
        .ok (((jlook mkvs "url").getD Json.null) :: tail)
      else
        .ok tail
  | _ :: _ => .error PyErr.attributeError

/-- `get_asset_paths_from_json` (sushichef.py lines 160-172): the relative
asset references extracted from a root configuration JSON. -/
def get_asset_paths_from_json (j : Json) : Except PyErr (List Json) :=
  match j with
  | .obj kvs =>
    match iterElems ((jlook kvs "models").getD (Json.arr [])) with
    | .error e => .error e
    | .ok elems =>
      match urlsLoop elems with
      | .error e => .error e
      | .ok urls =>
        if truthy ((jlook kvs "i18nMetadata").getD Json.null) then
          .ok (urls ++ [(jlook kvs "i18nMetadata").getD Json.null])
        else
          .ok urls
  | _ => .error .attributeError

/-- One model entry's contribution according to the claim's words: the `url`
field of an element that has a truthy `url` field. -/
def claimUrlOf : Json → Option Json
  | .obj mkvs =>
    match jlook mkvs "url" with
    | some u => if truthy u then some u else none
    | none => none
  | _ => none

/-- The top-level `models` list of a configuration object, `[]` when the
field is absent or not a list. -/
def claimModelsList (kvs : List (String × Json)) : List Json :=
  match jlook kvs "models" with
  | some (Json.arr xs) => xs
  | _ => []

/-- Claim C1's asset-extraction function, written from the claim's words:
the `url` of every `models` element with a truthy `url`, in list order,
followed by the value of `i18nMetadata` whenever that field is *present*. -/
def claimedAssetPaths (kvs : List (String × Json)) : List Json :=
  (claimModelsList kvs).filterMap claimUrlOf ++
    (match jlook kvs "i18nMetadata" with
     | some v => [v]
     | none => [])

/-- The amended asset-extraction function: as `claimedAssetPaths`, except
that `i18nMetadata` is appended only when its value is *truthy*. -/
def amendedAssetPaths (kvs : List (String × Json)) : List Json :=
  (claimModelsList kvs).filterMap claimUrlOf ++
    (match jlook kvs "i18nMetadata" with
     | some v => if truthy v then [v] else []
     | none => [])

/-- Side condition for the amended claim: the `models` field, when present,
is a list all of whose elements are objects. -/
def modelsElemsOk (kvs : List (String × Json)) : Bool :=
  match jlook kvs "models" with
  | none => true
  | some (Json.arr xs) => xs.all isObj
  | some _ => false

theorem urlsLoop_eq_filterMap (xs : List Json) (h : xs.all isObj = true) :
    urlsLoop xs = .ok (xs.filterMap claimUrlOf) := by
  induction xs with
  | nil => rfl
  | cons x rest ih =>
    simp only [List.all_cons, Bool.and_eq_true] at h
    match x, h.1 with
    | Json.obj mkvs, _ =>
      rw [urlsLoop, ih h.2]
      cases hu : jlook mkvs "url" with
      | none => simp [claimUrlOf, hu, truthy, List.filterMap_cons]
      | some u =>
        by_cases ht : truthy u
        · simp [claimUrlOf, hu, ht, List.filterMap_cons]
        · simp [claimUrlOf, hu, ht, List.filterMap_cons]

/-- Claim C1 (counterexample): the code appends `i18nMetadata` only when it
is *truthy*, not merely present, and it raises on non-dict `models`
elements.  At `{"i18nMetadata": ""}` the code returns `[]` while the claim
demands `[""]`; at `{"models": ["x"]}` the code raises `AttributeError`
while the claim demands a normal return. -/
theorem c1_counterexample :
    (get_asset_paths_from_json (Json.obj [("i18nMetadata", Json.str "")]) =
        Except.ok [] ∧
      claimedAssetPaths [("i18nMetadata", Json.str "")] = [Json.str ""] ∧
      ([] : List Json) ≠ [Json.str ""]) ∧
    (get_asset_paths_from_json (Json.obj [("models", Json.arr [Json.str "x"])]) =
        Except.error PyErr.attributeError ∧
      claimedAssetPaths [("models", Json.arr [Json.str "x"])] = []) := by
  exact ⟨⟨rfl, rfl, by simp⟩, rfl, rfl⟩

/-- Claim C1 (amended): for every configuration object whose `models` field,
when present, is a list of objects, `get_asset_paths_from_json` returns
exactly the `url` of every element with a truthy `url` field, in list
order, followed by the value of `i18nMetadata` when that field is present
*and truthy*; with no `models` list and no `i18nMetadata` it returns `[]`. -/
theorem c1_asset_paths (kvs : List (String × Json)) (h : modelsElemsOk kvs = true) :
    get_asset_paths_from_json (Json.obj kvs) = Except.ok (amendedAssetPaths kvs) := by
  rw [get_asset_paths_from_json]
  unfold modelsElemsOk at h
  cases hm : jlook kvs "models" with
  | none =>
    rw [show iterElems ((Option.getD none (Json.arr [])) : Json) = .ok [] from rfl]
    cases hi : jlook kvs "i18nMetadata" with
    | none => simp [urlsLoop, amendedAssetPaths, claimModelsList, hm, hi, truthy]
    | some v =>
      by_cases ht : truthy v
      · simp [urlsLoop, amendedAssetPaths, claimModelsList, hm, hi, ht]
      · simp [urlsLoop, amendedAssetPaths, claimModelsList, hm, hi, ht]
  | some mv =>
    rw [hm] at h
    cases mv with
    | arr xs =>
      rw [show iterElems ((Option.getD (some (Json.arr xs)) (Json.arr [])) : Json) = .ok xs from rfl]
      cases hi : jlook kvs "i18nMetadata" with
      | none => simp [urlsLoop_eq_filterMap xs h, amendedAssetPaths, claimModelsList, hm, hi, truthy]
      | some v =>
        by_cases ht : truthy v
        · simp [urlsLoop_eq_filterMap xs h, amendedAssetPaths, claimModelsList, hm, hi, ht]
        · simp [urlsLoop_eq_filterMap xs h, amendedAssetPaths, claimModelsList, hm, hi, ht]
    | null => exact Bool.noConfusion h
    | bool b => exact Bool.noConfusion h
    | num n => exact Bool.noConfusion h
    | str s => exact Bool.noConfusion h
    | obj o => exact Bool.noConfusion h

/-- Witness for the amended C1 theorem at a concrete configuration. -/
theorem c1_asset_paths_witness :
    get_asset_paths_from_json
      (Json.obj [("models", Json.arr [Json.obj [("url", Json.str "a/b.json")],
                                      Json.obj [("name", Json.str "no-url")]]),
                 ("i18nMetadata", Json.str "locales/meta.json")]) =
      Except.ok (amendedAssetPaths
        [("models", Json.arr [Json.obj [("url", Json.str "a/b.json")],
                              Json.obj [("name", Json.str "no-url")]]),
         ("i18nMetadata", Json.str "locales/meta.json")]) :=
  c1_asset_paths _ (by rfl)

/-- Decimal digits of `n`, most significant first (`fuel`-guarded division
recursion; the model of Python's `str` on a non-negative int). -/
def digitsRev (fuel n : Nat) : List Nat :=
  match fuel with
  | 0 => []
  | f + 1 => if n < 10 then [n] else digitsRev f (n / 10) ++ [n % 10]

/-- The decimal digit list of a natural number. -/
def pyNatDigits (n : Nat) : List Nat := digitsRev (n + 1) n

/-- The character for a decimal digit. -/
def digitChar : Nat → Char
  | 0 => '0'
  | 1 => '1'
  | 2 => '2'
  | 3 => '3'
  | 4 => '4'
  | 5 => '5'
  | 6 => '6'
  | 7 => '7'
  | 8 => '8'
  | _ => '9'

/-- Python `str(n)` for a natural number. -/
def pyNatStr (n : Nat) : String := String.mk ((pyNatDigits n).map digitChar)

/-- Split a character list at every occurrence of `c`. -/
def splitCharAux (c : Char) : List Char → List (List Char)
  | [] => [[]]
  | x :: xs =>
    let r := splitCharAux c xs
    if x = c then [] :: r
    else
      match r with
      | [] => [[x]]
      | h :: t => (x :: h) :: t

/-- Join character-list pieces with the character `c` between them. -/
def joinChar (c : Char) : List (List Char) → List Char
  | [] => []
  | [x] => x
  | x :: xs => x ++ c :: joinChar c xs

/-- `os.path.dirname`: everything before the last `/`, `""` if there is none. -/
def pyDirname (s : String) : String :=
  String.mk (joinChar '/' (splitCharAux '/' s.data).dropLast)

/-- `os.path.basename`: everything after the last `/`. -/
def pyBasename (s : String) : String :=
  String.mk ((splitCharAux '/' s.data).getLastD [])

/-- The root part of `os.path.splitext` applied to a basename. -/
def pySplitextRoot (s : String) : String :=
  match splitCharAux '.' s.data with
  | [] => s
  | [_] => s
  | parts =>
    match joinChar '.' parts.dropLast with
    | [] => s
    | root => String.mk root

/-- Python `str.startswith`. -/
def pyStartsWith (s p : String) : Bool := p.data.isPrefixOf s.data

/-- `requests` response headers lookup (the model keeps header names in the
lower-case form the code asks for). -/
def headerGet (hs : List (String × String)) (k : String) : Option String :=
  (hs.find? (fun p => p.1 == k)).map (fun p => p.2)

/-- Quoted string serialization used by the `json.dumps` model. -/
def dumpsStr (s : String) : String := "\"" ++ s ++ "\""

/-- `json.dumps`, fuel-guarded over the nested structure. -/
def dumpsFuel : Nat → Json → String
  | 0, _ => ""
  | _ + 1, .null => "null"
  | _ + 1, .bool true => "true"
  | _ + 1, .bool false => "false"
  | _ + 1, .num n => toString n
  | _ + 1, .str s => dumpsStr s
  | f + 1, .arr xs => "[" ++ String.intercalate ", " (xs.map (dumpsFuel f)) ++ "]"
  | f + 1, .obj kvs =>
    "\x7b" ++
      String.intercalate ", " (kvs.map (fun kv => dumpsStr kv.1 ++ ": " ++ dumpsFuel f kv.2)) ++
      "\x7d"

mutual

/-- Structural size of a JSON value, used as recursion fuel. -/
def jsonSize : Json → Nat
  | .null => 1
  | .bool _ => 1
  | .num _ => 1
  | .str _ => 1
  | .arr xs => 1 + jsonSizeL xs
  | .obj kvs => 1 + jsonSizeO kvs

/-- Structural size of a JSON array body. -/
def jsonSizeL : List Json → Nat
  | [] => 0
  | x :: xs => jsonSize x + jsonSizeL xs

/-- Structural size of a JSON object body. -/
def jsonSizeO : List (String × Json) → Nat
  | [] => 0
  | (_, v) :: kvs => jsonSize v + jsonSizeO kvs

end

/-- `json.dumps` of a parsed JSON value. -/
def dumps (j : Json) : String := dumpsFuel (jsonSize j) j

/-- The filesystem state: directories created so far, plus the journal of
file writes in order (for a path written several times, the last write is
the file's content). -/
structure FS where
  dirs : List String
  files : List (String × String)
  deriving Repr

/-- `os.makedirs(d, exist_ok=True)`. -/
def makedirsOk (d : String) (fs : FS) : FS :=
  if d ∈ fs.dirs then fs else ⟨fs.dirs ++ [d], fs.files⟩

/-- `os.makedirs(d)` without `exist_ok`: raises `FileExistsError` when the
directory already exists. -/
def makedirsStrict (d : String) (fs : FS) : Except PyErr FS :=
  if d ∈ fs.dirs then .error .fileExistsError else .ok ⟨fs.dirs ++ [d], fs.files⟩

/-- `open(p, 'w')` followed by writing `c`. -/
def writeFile (p c : String) (fs : FS) : FS := ⟨fs.dirs, fs.files ++ [(p, c)]⟩

/-- The content of the file at `p`: the last write to `p` in the journal. -/
def readFile (p : String) (files : List (String × String)) : Option String :=
  ((files.filter (fun e => e.1 == p)).getLast?).map (fun e => e.2)

theorem readFile_concat (p q c : String) (l : List (String × String)) :
    readFile p (l ++ [(q, c)]) = if q = p then some c else readFile p l := by
  unfold readFile
  rw [List.filter_append]
  by_cases h : q = p
  · simp [h, List.getLast?_concat]
  · have hb : ((q, c).1 == p) = false := beq_eq_false_iff_ne.mpr h
    simp [List.filter_cons, hb, h]

/-- An HTTP response as seen by `download`: success flag, status code,
headers, and the result of `response.json()` (`none` when the body does not
parse as JSON, in which case `.json()` raises). -/
structure Response where
  ok : Bool
  statusCode : Nat
  headers : List (String × String)
  jsonBody : Option Json

/-- The outcome of `download`: the final filesystem, the exception raised
(if any), and the printed failure diagnostics. -/
structure DownloadOut where
  fs : FS
  err : Option PyErr
  log : List String

/-- `download` (sushichef.py lines 175-192): fetch `url` (the response is
supplied by the caller), bail out with a printed diagnostic on a non-success
status or a content-type that does not start with `application/json`,
otherwise create the parent directory and write the re-serialized JSON body
to `download_path`. -/
def download (url download_path : String) (resp : Response) (fs : FS) : DownloadOut :=
  if !resp.ok then
    ⟨fs, none, ["FAILED TO DOWNLOAD, status_code: " ++ pyNatStr resp.statusCode, "url: " ++ url]⟩
  else
    match headerGet resp.headers "content-type" with
    | none => ⟨fs, some .keyError, []⟩
    | some ct =>
      if !pyStartsWith ct "application/json" then
        ⟨fs, none, ["FAILED TO DOWNLOAD, wrong content-type: " ++ ct, "url: " ++ url]⟩
      else
        let fs1 := makedirsOk (pyDirname download_path) fs
        let fs2 := writeFile download_path "" fs1
        match resp.jsonBody with
        | none => ⟨fs2, some .jsonDecodeError, []⟩
        | some j => ⟨writeFile download_path (dumps j) fs2, none, []⟩

/-- Claim C2 (counterexample): `download` is not exception-free for every
response — on a success status with no `content-type` header, the subscript
`response.headers['content-type']` raises `KeyError`. -/
theorem c2_counterexample :
    (download "http://x/a.json" "stage/a.json"
      ⟨true, 200, [], some Json.null⟩ ⟨[], []⟩).err = some PyErr.keyError := rfl

/-- Claim C2 (amended): `download` returns normally, with the filesystem
unchanged and the failure recorded in its printed diagnostics, whenever the
HTTP status is non-success, and whenever the status is success and a
`content-type` header is present whose value does not start with
`application/json`.  (It can still raise when the header is absent or when a
JSON body fails to parse.) -/
theorem c2_download_no_raise (url path : String) (resp : Response) (fs : FS) :
    (resp.ok = false →
      download url path resp fs =
        ⟨fs, none, ["FAILED TO DOWNLOAD, status_code: " ++ pyNatStr resp.statusCode,
                    "url: " ++ url]⟩) ∧
    (∀ ct, resp.ok = true → headerGet resp.headers "content-type" = some ct →
      pyStartsWith ct "application/json" = false →
      download url path resp fs =
        ⟨fs, none, ["FAILED TO DOWNLOAD, wrong content-type: " ++ ct, "url: " ++ url]⟩) := by
  constructor
  · intro h
    simp [download, h]
  · intro ct hok hct hpre
    simp [download, hok, hct, hpre]

/-- Witness for the amended C2 theorem: a concrete 404 response and a
concrete wrong-content-type response both return normally. -/
theorem c2_download_no_raise_witness :
    download "http://x/a.json" "stage/a.json" ⟨false, 404, [], none⟩ ⟨[], []⟩ =
      ⟨⟨[], []⟩, none, ["FAILED TO DOWNLOAD, status_code: 404", "url: http://x/a.json"]⟩ ∧
    download "http://x/b.json" "stage/b.json"
        ⟨true, 200, [("content-type", "text/html")], none⟩ ⟨[], []⟩ =
      ⟨⟨[], []⟩, none,
        ["FAILED TO DOWNLOAD, wrong content-type: text/html", "url: http://x/b.json"]⟩ :=
  ⟨(c2_download_no_raise "http://x/a.json" "stage/a.json" _ _).1 rfl,
   (c2_download_no_raise "http://x/b.json" "stage/b.json" _ _).2 "text/html" rfl rfl rfl⟩

/-- Claim C10: `download` is atomic on its recorded failure paths (non-success
status, or present-but-wrong content-type: the filesystem is untouched), and
on the ok path it creates the parent directory of the download path and
leaves at that path exactly the `json.dumps` re-serialization of the parsed
response body. -/
theorem c10_download_atomic (url path : String) (resp : Response) (fs : FS) :
    ((resp.ok = false → (download url path resp fs).fs = fs) ∧
     (∀ ct, resp.ok = true → headerGet resp.headers "content-type" = some ct →
        pyStartsWith ct "application/json" = false → (download url path resp fs).fs = fs)) ∧
    (∀ ct j, resp.ok = true → headerGet resp.headers "content-type" = some ct →
      pyStartsWith ct "application/json" = true → resp.jsonBody = some j →
      (download url path resp fs).err = none ∧
      pyDirname path ∈ (download url path resp fs).fs.dirs ∧
      readFile path (download url path resp fs).fs.files = some (dumps j)) := by
  refine ⟨⟨fun h => by simp [download, h], fun ct hok hct hpre => by simp [download, hok, hct, hpre]⟩,
    fun ct j hok hct hpre hj => ?_⟩
  have hd : download url path resp fs =
      ⟨writeFile path (dumps j) (writeFile path "" (makedirsOk (pyDirname path) fs)),
        none, []⟩ := by
    simp [download, hok, hct, hpre, hj]
  refine ⟨by rw [hd], ?_, ?_⟩
  · rw [hd]
    simp only [writeFile]
    by_cases h : pyDirname path ∈ fs.dirs
    · simp [makedirsOk, h]
    · simp [makedirsOk, h]
  · rw [hd]
    simp only [writeFile]
    rw [readFile_concat]
    simp

/-- Witness for the C10 theorem at a concrete successful JSON download. -/
theorem c10_download_atomic_witness :
    (download "http://x/m.json" "stage/models/m.json"
        ⟨true, 200, [("content-type", "application/json")],
          some (Json.obj [("title", Json.str "T")])⟩ ⟨[], []⟩).err = none ∧
    "stage/models" ∈ (download "http://x/m.json" "stage/models/m.json"
        ⟨true, 200, [("content-type", "application/json")],
          some (Json.obj [("title", Json.str "T")])⟩ ⟨[], []⟩).fs.dirs ∧
    readFile "stage/models/m.json" (download "http://x/m.json" "stage/models/m.json"
        ⟨true, 200, [("content-type", "application/json")],
          some (Json.obj [("title", Json.str "T")])⟩ ⟨[], []⟩).fs.files =
      some (dumps (Json.obj [("title", Json.str "T")])) :=
  (c10_download_atomic "http://x/m.json" "stage/models/m.json" _ _).2
    "application/json" (Json.obj [("title", Json.str "T")]) rfl rfl rfl rfl

/-- A Python runtime value, as needed to evaluate `get_model_license`:
JSON-style data plus the bound method produced by the attribute access
`d.get` on a dict. -/
inductive PyVal where
  | pynone
  | int (n : Int)
  | str (s : String)
  | list (xs : List PyVal)
  | dict (kvs : List (String × PyVal))
  | method (self : List (String × PyVal))

/-- Python subscript `v[k]`: dict lookup (KeyError when missing), list
indexing, and `TypeError` on non-subscriptable values — in particular on a
bound method. -/
def pySubscript : PyVal → PyVal → Except PyErr PyVal
  | .dict kvs, .str k =>
    (match kvs.find? (fun p => p.1 == k) with
     | some p => .ok p.2
     | none => .error .keyError)
  | .dict _, _ => .error .keyError
  | .method _, _ => .error .typeError
  | .list xs, .int i =>
    (match xs.get? i.toNat with
     | some v => .ok v
     | none => .error .indexError)
  | _, _ => .error .typeError

/-- Python attribute access `v.get`: on a dict it yields the bound method;
every other value in scope here has no `get` attribute. -/
def pyAttrGet : PyVal → Except PyErr PyVal
  | .dict kvs => .ok (.method kvs)
  | _ => .error .attributeError

/-- The body of `get_model_license`'s `try` block:
`model.get['license_info']['code']`. -/
def getModelLicenseAttempt (model : PyVal) : Except PyErr PyVal :=
  match pyAttrGet model with
  | .error e => .error e
  | .ok g =>
    match pySubscript g (PyVal.str "license_info") with
    | .error e => .error e
    | .ok a => pySubscript a (PyVal.str "code")

/-- `get_model_license` (sushichef.py lines 204-208). -/
def get_model_license (model : PyVal) : PyVal :=
  match getModelLicenseAttempt model with
  | .ok v => v
  | .error _ => .str "unknown_license"

/-- Claim C9: for every input value — dictionaries with well-formed
`license_info` included — the subscript of the bound method `model.get`
raises, the `except` branch is taken, and `get_model_license` returns
`'unknown_license'`. -/
theorem c9_get_model_license (model : PyVal) :
    (∃ e, getModelLicenseAttempt model = .error e) ∧
    get_model_license model = PyVal.str "unknown_license" := by
  have h : ∃ e, getModelLicenseAttempt model = .error e := by
    cases model <;> simp [getModelLicenseAttempt, pyAttrGet, pySubscript]
  obtain ⟨e, he⟩ := h
  exact ⟨⟨e, he⟩, by simp [get_model_license, he]⟩

/-- Python `str.rjust(w, c)`. -/
def pyRjust (s : String) (w : Nat) (c : Char) : String :=
  String.mk (List.replicate (w - s.length) c ++ s.data)

/-- The per-entry staging directory
`temp_dir + os.sep + 'soup_' + str(i).rjust(3, '0')` (sushichef.py line 94). -/
def soupDirName (tempDir : String) (i : Nat) : String :=
  tempDir ++ "/soup_" ++ pyRjust (pyNatStr i) 3 '0'

/-- `get_temp_dir` (sushichef.py lines 211-215): ensure the parent directory
exists and create the run-scoped temporary root
`os.getcwd() + os.sep + parent_dir + os.sep` plus the fresh suffix chosen by
`tempfile.mkdtemp`. -/
def get_temp_dir (cwd parent_dir sfx : String) (fs : FS) : String × FS :=
  let fs1 := makedirsOk parent_dir fs
  let temp_dir := cwd ++ "/" ++ parent_dir ++ "/" ++ sfx
  (temp_dir, ⟨fs1.dirs ++ [temp_dir], fs1.files⟩)

/-- The value denoted by a big-endian decimal digit list. -/
def digitsVal (l : List Nat) : Nat := l.foldl (fun a d => a * 10 + d) 0

theorem digitsVal_digitsRev : ∀ fuel n, n ≤ fuel → digitsVal (digitsRev fuel n) = n := by
  intro fuel
  induction fuel with
  | zero =>
    intro n h
    interval_cases n
    rfl
  | succ f ih =>
    intro n h
    rw [digitsRev]
    by_cases h10 : n < 10
    · rw [if_pos h10]
      show 0 * 10 + n = n
      omega
    · rw [if_neg h10]
      have hlt : n / 10 < n := Nat.div_lt_self (by omega) (by omega)
      have hle : n / 10 ≤ f := by omega
      have hv := ih (n / 10) hle
      rw [digitsVal, List.foldl_append]
      rw [digitsVal] at hv
      rw [hv]
      show (n / 10) * 10 + n % 10 = n
      omega

theorem digitsRev_lt : ∀ fuel n d, d ∈ digitsRev fuel n → d < 10 := by
  intro fuel
  induction fuel with
  | zero =>
    intro n d h
    simp [digitsRev] at h
  | succ f ih =>
    intro n d h
    rw [digitsRev] at h
    by_cases h10 : n < 10
    · rw [if_pos h10] at h
      simp at h
      omega
    · rw [if_neg h10] at h
      rcases List.mem_append.mp h with h1 | h2
      · exact ih _ _ h1
      · simp at h2
        omega

theorem digitsRev_ne_nil (f n : Nat) : digitsRev (f + 1) n ≠ [] := by
  rw [digitsRev]
  by_cases h10 : n < 10
  · simp [h10]
  · simp [h10]

theorem digitsRev_head_ne_zero :
    ∀ fuel n, n ≤ fuel → 1 ≤ n → ∀ d, (digitsRev fuel n).head? = some d → d ≠ 0 := by
  intro fuel
  induction fuel with
  | zero =>
    intro n h1 h2
    omega
  | succ f ih =>
    intro n h1 h2 d hd
    rw [digitsRev] at hd
    by_cases h10 : n < 10
    · rw [if_pos h10] at hd
      simp at hd
      omega
    · rw [if_neg h10] at hd
      have hlt : n / 10 < n := Nat.div_lt_self (by omega) (by omega)
      have hle : n / 10 ≤ f := by omega
      have hone : 1 ≤ n / 10 := by omega
      rw [List.head?_append] at hd
      cases hl : (digitsRev f (n / 10)).head? with
      | none =>
        have hnil : digitsRev f (n / 10) = [] := List.head?_eq_none_iff.mp hl
        obtain ⟨g, rfl⟩ : ∃ g, f = g + 1 := ⟨f - 1, by omega⟩
        exact absurd hnil (digitsRev_ne_nil g (n / 10))
      | some d' =>
        rw [hl] at hd
        simp [Option.or] at hd
        rw [← hd]
        exact ih (n / 10) hle hone d' hl

theorem pyNatDigits_ne_nil (n : Nat) : pyNatDigits n ≠ [] := digitsRev_ne_nil n n

theorem pyNatDigits_inj (m n : Nat) (h : pyNatDigits m = pyNatDigits n) : m = n := by
  have hm := digitsVal_digitsRev (m + 1) m (by omega)
  have hn := digitsVal_digitsRev (n + 1) n (by omega)
  rw [pyNatDigits, pyNatDigits] at h
  rw [← hm, ← hn, h]

theorem digitChar_inj (d1 d2 : Nat) (h1 : d1 < 10) (h2 : d2 < 10) :
    digitChar d1 = digitChar d2 → d1 = d2 := by
  interval_cases d1 <;> interval_cases d2 <;> decide

theorem digitChar_ne_zero_char (d : Nat) (h1 : d < 10) (h2 : d ≠ 0) : digitChar d ≠ '0' := by
  interval_cases d
  · exact absurd rfl h2
  all_goals decide

theorem map_digitChar_inj :
    ∀ (l1 l2 : List Nat), (∀ d ∈ l1, d < 10) → (∀ d ∈ l2, d < 10) →
      l1.map digitChar = l2.map digitChar → l1 = l2 := by
  intro l1
  induction l1 with
  | nil =>
    intro l2 _ _ h
    cases l2 with
    | nil => rfl
    | cons b t => simp at h
  | cons a t ih =>
    intro l2 hb1 hb2 h
    cases l2 with
    | nil => simp at h
    | cons b t2 =>
      simp only [List.map_cons, List.cons.injEq] at h
      have ha : a = b := digitChar_inj a b (hb1 a (by simp)) (hb2 b (by simp)) h.1
      rw [ha, ih t2 (fun d hd => hb1 d (by simp [hd])) (fun d hd => hb2 d (by simp [hd])) h.2]

theorem dropWhile_zeros_replicate (k : Nat) (l : List Char) :
    List.dropWhile (fun c => c == '0') (List.replicate k '0' ++ l) =
      List.dropWhile (fun c => c == '0') l := by
  induction k with
  | zero => simp
  | succ j ih => simp [List.replicate_succ, List.dropWhile_cons, ih]

theorem dropWhile_zeros_pyNatStr (n : Nat) (h : 1 ≤ n) :
    List.dropWhile (fun c => c == '0') (pyNatStr n).data = (pyNatStr n).data := by
  rw [show (pyNatStr n).data = (pyNatDigits n).map digitChar from rfl]
  cases hl : pyNatDigits n with
  | nil => simp
  | cons d t =>
    have hne : d ≠ 0 :=
      digitsRev_head_ne_zero (n + 1) n (by omega) h d (by rw [pyNatDigits] at hl; rw [hl]; rfl)
    have hd10 : d < 10 :=
      digitsRev_lt (n + 1) n d (by rw [pyNatDigits] at hl; rw [hl]; simp)
    have hb : (digitChar d == '0') = false :=
      beq_eq_false_iff_ne.mpr (digitChar_ne_zero_char d hd10 hne)
    simp [List.dropWhile_cons, hb]

theorem pyRjust_pyNatStr_inj (m n : Nat)
    (h : pyRjust (pyNatStr m) 3 '0' = pyRjust (pyNatStr n) 3 '0') : m = n := by
  have hd : List.replicate (3 - (pyNatStr m).length) '0' ++ (pyNatStr m).data =
      List.replicate (3 - (pyNatStr n).length) '0' ++ (pyNatStr n).data := congrArg String.data h
  have hdw := congrArg (List.dropWhile (fun c => c == '0')) hd
  rw [dropWhile_zeros_replicate, dropWhile_zeros_replicate] at hdw
  have hstr : ∀ k, (pyNatStr k).data = (pyNatDigits k).map digitChar := fun _ => rfl
  by_cases hm : 1 ≤ m
  · by_cases hn : 1 ≤ n
    · rw [dropWhile_zeros_pyNatStr m hm, dropWhile_zeros_pyNatStr n hn] at hdw
      rw [hstr, hstr] at hdw
      exact pyNatDigits_inj m n
        (map_digitChar_inj _ _ (fun d hd' => digitsRev_lt _ _ d hd')
          (fun d hd' => digitsRev_lt _ _ d hd') hdw)
    · have hn0 : n = 0 := by omega
      subst hn0
      rw [dropWhile_zeros_pyNatStr m hm] at hdw
      rw [show List.dropWhile (fun c => c == '0') (pyNatStr 0).data = [] from rfl] at hdw
      rw [hstr] at hdw
      exact absurd (List.map_eq_nil_iff.mp hdw) (pyNatDigits_ne_nil m)
  · have hm0 : m = 0 := by omega
    subst hm0
    by_cases hn : 1 ≤ n
    · rw [dropWhile_zeros_pyNatStr n hn] at hdw
      rw [show List.dropWhile (fun c => c == '0') (pyNatStr 0).data = [] from rfl] at hdw
      rw [hstr] at hdw
      exact absurd (List.map_eq_nil_iff.mp hdw.symm) (pyNatDigits_ne_nil n)
    · omega

theorem noslash_sep_inj :
    ∀ (u1 u2 v1 v2 : List Char), '/' ∉ u1 → '/' ∉ u2 →
      u1 ++ '/' :: v1 = u2 ++ '/' :: v2 → u1 = u2 ∧ v1 = v2 := by
  intro u1
  induction u1 with
  | nil =>
    intro u2 v1 v2 h1 h2 h
    cases u2 with
    | nil => simpa using h
    | cons b t2 =>
      simp only [List.nil_append, List.cons_append, List.cons.injEq] at h
      exact absurd (by rw [← h.1]; exact List.mem_cons_self _ _) h2
  | cons a t ih =>
    intro u2 v1 v2 h1 h2 h
    cases u2 with
    | nil =>
      simp only [List.cons_append, List.nil_append, List.cons.injEq] at h
      exact absurd (by rw [h.1]; exact List.mem_cons_self _ _) h1
    | cons b t2 =>
      simp only [List.cons_append, List.cons.injEq] at h
      have hrec := ih t2 v1 v2 (fun hmem => h1 (List.mem_cons_of_mem _ hmem))
        (fun hmem => h2 (List.mem_cons_of_mem _ hmem)) h.2
      exact ⟨by rw [h.1, hrec.1], hrec.2⟩

/-- Claim C7: staging directories are collision-free — within one run the
soup directories for distinct entry indices are distinct paths; every soup
directory lies strictly under the run's temporary root; and for two runs
whose `mkdtemp` suffixes differ (`mkdtemp` guarantees a fresh, slash-free
name), the staging directories of one run are disjoint from the other's. -/
theorem c7_staging_distinct :
    (∀ t i j, i ≠ j → soupDirName t i ≠ soupDirName t j) ∧
    (∀ t i, soupDirName t i = t ++ ("/soup_" ++ pyRjust (pyNatStr i) 3 '0')) ∧
    (∀ cwd s1 s2 fsa fsb i j, s1 ≠ s2 → '/' ∉ s1.data → '/' ∉ s2.data →
      soupDirName (get_temp_dir cwd "temp" s1 fsa).1 i ≠
        soupDirName (get_temp_dir cwd "temp" s2 fsb).1 j) := by
  refine ⟨?_, ?_, ?_⟩
  · intro t i j hij h
    apply hij
    have hd := congrArg String.data h
    simp only [soupDirName, String.data_append, List.append_assoc] at hd
    have h1 := List.append_cancel_left hd
    have h2 := List.append_cancel_left h1
    exact pyRjust_pyNatStr_inj i j (String.ext h2)
  · intro t i
    rw [soupDirName, String.append_assoc]
  · intro cwd s1 s2 fsa fsb i j h12 hs1 hs2 h
    apply h12
    have hd := congrArg String.data h
    simp only [soupDirName, get_temp_dir, String.data_append, List.append_assoc] at hd
    have h1 := List.append_cancel_left hd
    have h2 := List.append_cancel_left h1
    have h3 := List.append_cancel_left h2
    have h4 := List.append_cancel_left h3
    have hsd : ∀ p : List Char, "/soup_".data ++ p = '/' :: ("soup_".data ++ p) :=
      fun _ => rfl
    rw [hsd, hsd] at h4
    exact String.ext (noslash_sep_inj s1.data s2.data _ _ hs1 hs2 h4).1

/-- Witness for C7 at concrete indices and run suffixes. -/
theorem c7_staging_distinct_witness :
    soupDirName "/cwd/temp/run1" 0 ≠ soupDirName "/cwd/temp/run1" 1 ∧
    soupDirName (get_temp_dir "/cwd" "temp" "runA" ⟨[], []⟩).1 0 ≠
      soupDirName (get_temp_dir "/cwd" "temp" "runB" ⟨[], []⟩).1 0 :=
  ⟨c7_staging_distinct.1 "/cwd/temp/run1" 0 1 (by decide),
   c7_staging_distinct.2.2 "/cwd" "runA" "runB" ⟨[], []⟩ ⟨[], []⟩ 0 0
     (by decide) (by decide) (by decide)⟩

/-- Replace every non-overlapping occurrence of `pat` in a character list,
left to right (fuel-guarded; one character is consumed per step). -/
def pyReplaceAux (pat rep : List Char) : Nat → List Char → List Char
  | 0, l => l
  | _ + 1, [] => []
  | f + 1, c :: cs =>
    if pat.isPrefixOf (c :: cs) then
      rep ++ pyReplaceAux pat rep f (List.drop pat.length (c :: cs))
    else
      c :: pyReplaceAux pat rep f cs

/-- Python `str.replace(pat, rep)`. -/
def pyReplace (s pat rep : String) : String :=
  String.mk (pyReplaceAux pat.data rep.data s.data.length s.data)

/-- The components of `urllib.parse.urlparse` used by the chef. -/
structure UrlParts where
  scheme : String
  netloc : String
  path : String
  fragment : String
  deriving Repr, DecidableEq

/-- Split a character list at the first occurrence of `sep`, `none` when
`sep` does not occur. -/
def splitFirstL (sep : List Char) : List Char → Option (List Char × List Char)
  | [] => none
  | c :: cs =>
    if sep.isPrefixOf (c :: cs) then
      some ([], List.drop sep.length (c :: cs))
    else
      match splitFirstL sep cs with
      | some (a, b) => some (c :: a, b)
      | none => none

/-- Split scheme-free remainder into netloc, path (for `scheme://`-URLs). -/
def parseNetPath (sc rest : List Char) (frag : String) : UrlParts :=
  match splitFirstL ['/'] rest with
  | none => ⟨String.mk sc, String.mk rest, "", frag⟩
  | some (nl, p) => ⟨String.mk sc, String.mk nl, String.mk ('/' :: p), frag⟩

/-- `urllib.parse.urlparse` restricted to the URL shapes the chef meets:
`scheme://netloc/path#fragment` (no query-string handling). -/
def urlparse (s : String) : UrlParts :=
  match splitFirstL "://".data s.data with
  | none =>
    (match splitFirstL ['#'] s.data with
     | none => ⟨"", "", s, ""⟩
     | some (p, f) => ⟨"", "", String.mk p, String.mk f⟩)
  | some (sc, rest) =>
    (match splitFirstL ['#'] rest with
     | none => parseNetPath sc rest ""
     | some (nlp, f) => parseNetPath sc nlp (String.mk f))

/-- `ParseResult.geturl()`. -/
def UrlParts.geturl (u : UrlParts) : String :=
  (if u.scheme = "" then "" else u.scheme ++ "://") ++ u.netloc ++ u.path ++
    (if u.fragment = "" then "" else "#" ++ u.fragment)

/-- `scheme + '://' + netloc` (sushichef.py line 84). -/
def baseOf (u : UrlParts) : String := u.scheme ++ "://" ++ u.netloc

/-- A catalog entry as consumed by `construct_channel`: the fields of the
`models` dicts that the code reads. -/
structure Model where
  id : Nat
  preview_url : String
  license_info : PyVal

/-- The catalog entry as the Python dict handed to `get_model_license`. -/
def Model.toPyVal (m : Model) : PyVal :=
  .dict [("id", .int m.id), ("preview_url", .str m.preview_url),
         ("license_info", m.license_info)]

/-- The network oracle: redirect resolution (`requests.get(u).url`), HTML
fetching (`get_soup`), the external `download_static_assets` collaborator
(returns the rewritten document), JSON fetching (`requests.get(u).json()`),
and raw responses for `download`. -/
structure Http where
  finalUrl : String → Except PyErr String
  getSoup : String → Except PyErr String
  staticAssets : String → String → String → List String → String
  getJson : String → Except PyErr Json
  assetResp : String → Response

/-- An `HTML5AppNode` as constructed by the chef. -/
structure AppNode where
  source_id : String
  title : Json
  description : String
  copyrightHolder : PyVal
  zipFile : String
  language : String

/-- A `TopicNode` with its children. -/
structure TopicNode where
  title : Json
  source_id : String
  children : List AppNode

/-- The orchestrator's accumulated state: channel children, filesystem, and
the created archives. -/
structure RunState where
  channel : List TopicNode
  fs : FS
  zips : List String

/-- Python's `repr` of a parsed JSON value (fuel-guarded). -/
def pyReprFuel : Nat → Json → String
  | 0, _ => ""
  | _ + 1, .null => "None"
  | _ + 1, .bool true => "True"
  | _ + 1, .bool false => "False"
  | _ + 1, .num n => toString n
  | _ + 1, .str s => "'" ++ s ++ "'"
  | f + 1, .arr xs => "[" ++ String.intercalate ", " (xs.map (pyReprFuel f)) ++ "]"
  | f + 1, .obj kvs =>
    "\x7b" ++
      String.intercalate ", " (kvs.map (fun kv => "'" ++ kv.1 ++ "': " ++ pyReprFuel f kv.2)) ++
      "\x7d"

/-- Python `str()` of a parsed JSON value. -/
def pyToStr : Json → String
  | .str s => s
  | .null => "None"
  | .bool true => "True"
  | .bool false => "False"
  | .num n => toString n
  | v => pyReprFuel (jsonSize v) v

/-- Evaluate `list(map(f, l))` eagerly, propagating the first exception. -/
def exceptMapM {α β : Type} (f : α → Except PyErr β) : List α → Except PyErr (List β)
  | [] => .ok []
  | a :: as =>
    match f a with
    | .error e => .error e
    | .ok b =>
      match exceptMapM f as with
      | .error e => .error e
      | .ok bs => .ok (b :: bs)

/-- `fragment_json.get(...)` demands a dict; line 121 raises
`AttributeError` otherwise. -/
def requireObj : Json → Except PyErr (List (String × Json))
  | .obj kvs => .ok kvs
  | _ => .error .attributeError

/-- The `for ap in relative_asset_paths` loop (sushichef.py lines 126-131):
each path is joined to the base URL and to the staging directory and handed
to `download`; a non-string path raises `TypeError` at the concatenation. -/
def assetStep (http : Http) (base soup_dir s : String) (fs : FS) : DownloadOut :=
  download (base ++ "/" ++ s) (soup_dir ++ "/" ++ pyDirname s ++ "/" ++ pyBasename s)
    (http.assetResp (base ++ "/" ++ s)) fs

def assetLoop (http : Http) (base soup_dir : String) :
    List Json → FS → Except PyErr FS
  | [], fs => .ok fs
  | a :: rest, fs =>
    match a with
    | Json.str s =>
      (match (assetStep http base soup_dir s fs).err with
       | some e => .error e
       | none => assetLoop http base soup_dir rest (assetStep http base soup_dir s fs).fs)
    | _ => .error .typeError

/-- One iteration of the `for i, soup in enumerate(soups)` loop (sushichef.py
lines 93-153): create the staging directory, download static assets and
write the rewritten `index.html`, fetch and store the root configuration
JSON, download its referenced assets, create the archive, and append the
topic node with its app node. -/
def soupStep (http : Http) (temp_dir : String) (i : Nat) (parsed : UrlParts)
    (soup : String) (model : Model) (st : RunState) : Except PyErr RunState :=
  let soup_dir := soupDirName temp_dir i
  let base := baseOf parsed
  let frag := parsed.fragment
  (makedirsStrict soup_dir st.fs).bind (fun fsA =>
    let doc := http.staticAssets soup soup_dir base ["analytics.js"]
    let fsB := writeFile (soup_dir ++ "/index.html")
      (pyReplace doc "document.location.hash" ("'#" ++ frag ++ "'")) fsA
    let download_dir := soup_dir ++ "/" ++ pyDirname frag
    let filename := pyBasename frag
    (http.getJson (base ++ "/" ++ frag)).bind (fun fragment_json =>
      (makedirsStrict download_dir fsB).bind (fun fsC =>
        let fsD := writeFile (download_dir ++ "/" ++ filename) (dumps fragment_json) fsC
        (requireObj fragment_json).bind (fun kvs =>
          (get_asset_paths_from_json fragment_json).bind (fun asset_paths =>
            (assetLoop http base soup_dir asset_paths fsD).bind (fun fsE =>
              let zip_path := soup_dir ++ ".zip"
              let app : AppNode :=
                ⟨"embeddable/" ++ pySplitextRoot (pyBasename frag),
                 (jlook kvs "title").getD (Json.str "follow redirect to get app title"),
                 pyToStr ((jlook kvs "about").getD
                   (Json.str "follow redirect to get app description")),
                 get_model_license model.toPyVal, zip_path, "en"⟩
              let topic : TopicNode :=
                ⟨(jlook kvs "title").getD (Json.str "follow redirect to get topic title"),
                 "model/" ++ pyNatStr model.id, [app]⟩
              Except.ok ⟨st.channel ++ [topic], fsE, st.zips ++ [zip_path]⟩))))))

/-- The whole per-soup loop, indexed from `i`. -/
def soupLoop (http : Http) (temp_dir : String) :
    Nat → List (UrlParts × String × Model) → RunState → Except PyErr RunState
  | _, [], st => .ok st
  | i, (parsed, soup, model) :: rest, st =>
    match soupStep http temp_dir i parsed soup model st with
    | .error e => .error e
    | .ok st' => soupLoop http temp_dir (i + 1) rest st'

/-- `MyChef.construct_channel` (sushichef.py lines 63-157), over a given
catalog: resolve every preview URL (eagerly, first exception aborts),
filter to the entries whose resolved path is `/embeddable.html`, create the
run-scoped temporary root, fetch every embeddable page, and run the
per-soup loop.  `models[i]` is indexed by the *filtered* position `i`,
exactly as in the source.  There is no error handling anywhere: every
exception propagates. -/
def constructChannel (models : List Model) (http : Http) (cwd mkdtempSfx : String)
    (fs0 : FS) : Except PyErr RunState :=
  match exceptMapM http.finalUrl (models.map (fun m => m.preview_url)) with
  | .error e => .error e
  | .ok resolved_urls =>
    let parsed_urls := resolved_urls.map urlparse
    let embeddable := parsed_urls.filter (fun u => u.path == "/embeddable.html")
    let td := get_temp_dir cwd "temp" mkdtempSfx fs0
    (match exceptMapM (fun u => http.getSoup u.geturl) embeddable with
     | .error e => .error e
     | .ok soups =>
       soupLoop http td.1 0 (embeddable.zip (soups.zip models)) ⟨[], td.2, []⟩)

theorem exceptBind_eq_ok {α β : Type} (x : Except PyErr α) (f : α → Except PyErr β) (b : β) :
    x.bind f = .ok b ↔ ∃ a, x = .ok a ∧ f a = .ok b := by
  cases x <;> simp [Except.bind]

theorem exceptMapM_error {α β : Type} (f : α → Except PyErr β) :
    ∀ (l : List α) (a : α), a ∈ l → (∃ e, f a = .error e) →
      ∃ e, exceptMapM f l = .error e := by
  intro l
  induction l with
  | nil => intro a ha; exact absurd ha (List.not_mem_nil a)
  | cons x xs ih =>
    intro a ha herr
    rw [exceptMapM]
    cases hx : f x with
    | error e => exact ⟨e, rfl⟩
    | ok b =>
      rcases List.mem_cons.mp ha with rfl | hmem
      · obtain ⟨e, he⟩ := herr
        rw [he] at hx
        exact Except.noConfusion hx
      · obtain ⟨e, he⟩ := ih a hmem herr
        rw [he]
        exact ⟨e, rfl⟩

theorem exceptMapM_ok_length {α β : Type} (f : α → Except PyErr β) :
    ∀ (l : List α) (bs : List β), exceptMapM f l = .ok bs → bs.length = l.length := by
  intro l
  induction l with
  | nil =>
    intro bs h
    rw [exceptMapM] at h
    injection h with h'
    rw [← h']
    rfl
  | cons x xs ih =>
    intro bs h
    rw [exceptMapM] at h
    split at h
    · exact Except.noConfusion h
    · split at h
      · exact Except.noConfusion h
      · injection h with h'
        rw [← h']
        rename_i bs' hbs'
        simp [ih bs' hbs']

/-- A concrete network oracle for the C3 scenario: resolution fails for one
catalog entry and succeeds for every other. -/
def httpCx : Http :=
  ⟨fun u => if u == "https://x/bad?id=1" then .error .networkError
            else .ok "https://x/embeddable.html#models/7.json",
   fun _ => .ok "<html><script>document.location.hash</script></html>",
   fun doc _ _ _ => doc,
   fun _ => .ok (Json.obj [("title", Json.str "Pendulum")]),
   fun _ => ⟨true, 200, [("content-type", "application/json")], some Json.null⟩⟩

/-- Claim C3 (counterexample): a catalog with one entry whose resolution
fails and one healthy entry.  `construct_channel` raises the network error
and returns nothing — the healthy entry is not processed, no diagnostic is
recorded, and the run is aborted, contradicting the claim. -/
theorem c3_counterexample :
    constructChannel
      [⟨1, "https://x/bad?id=1", PyVal.pynone⟩, ⟨2, "https://x/good?id=2", PyVal.pynone⟩]
      httpCx "/cwd" "run0" ⟨[], []⟩ = .error PyErr.networkError := rfl

/-- Claim C3 (amended): the orchestrator has no per-entry error handling —
whenever the resolution of any single catalog entry raises, the exception
propagates out of `construct_channel`: the whole run aborts with that
failure and no entry (healthy ones included) yields any result or
diagnostic. -/
theorem c3_entry_failure_aborts_run (models : List Model) (http : Http)
    (cwd sfx : String) (fs0 : FS) (m : Model) (hm : m ∈ models)
    (herr : ∃ e, http.finalUrl m.preview_url = .error e) :
    ∃ e, constructChannel models http cwd sfx fs0 = .error e := by
  obtain ⟨e, he⟩ := exceptMapM_error http.finalUrl (models.map (fun m => m.preview_url))
    m.preview_url (List.mem_map_of_mem _ hm) herr
  refine ⟨e, ?_⟩
  rw [constructChannel, he]

/-- Witness for the amended C3 theorem at the concrete scenario. -/
theorem c3_entry_failure_aborts_run_witness :
    ∃ e, constructChannel
      [⟨1, "https://x/bad?id=1", PyVal.pynone⟩, ⟨2, "https://x/good?id=2", PyVal.pynone⟩]
      httpCx "/cwd" "run0" ⟨[], []⟩ = .error e :=
  c3_entry_failure_aborts_run _ httpCx "/cwd" "run0" ⟨[], []⟩
    ⟨1, "https://x/bad?id=1", PyVal.pynone⟩ (List.mem_cons_self _ _)
    ⟨PyErr.networkError, rfl⟩

theorem soupStep_count (http : Http) (temp_dir : String) (i : Nat) (parsed : UrlParts)
    (soup : String) (model : Model) (st st' : RunState)
    (h : soupStep http temp_dir i parsed soup model st = .ok st') :
    st'.channel.length = st.channel.length + 1 ∧ st'.zips.length = st.zips.length + 1 := by
  rw [soupStep] at h
  rw [exceptBind_eq_ok] at h
  obtain ⟨fsA, hA, h⟩ := h
  rw [exceptBind_eq_ok] at h
  obtain ⟨fj, hJ, h⟩ := h
  rw [exceptBind_eq_ok] at h
  obtain ⟨fsC, hC, h⟩ := h
  rw [exceptBind_eq_ok] at h
  obtain ⟨kvs, hK, h⟩ := h
  rw [exceptBind_eq_ok] at h
  obtain ⟨aps, hAps, h⟩ := h
  rw [exceptBind_eq_ok] at h
  obtain ⟨fsE, hE, h⟩ := h
  injection h with h'
  rw [← h']
  simp

theorem soupLoop_count (http : Http) (temp_dir : String) :
    ∀ (items : List (UrlParts × String × Model)) (i : Nat) (st st' : RunState),
      soupLoop http temp_dir i items st = .ok st' →
      st'.channel.length = st.channel.length + items.length ∧
      st'.zips.length = st.zips.length + items.length := by
  intro items
  induction items with
  | nil =>
    intro i st st' h
    rw [soupLoop] at h
    injection h with h'
    rw [← h']
    simp
  | cons item rest ih =>
    intro i st st' h
    obtain ⟨parsed, soup, model⟩ := item
    rw [soupLoop] at h
    split at h
    · exact Except.noConfusion h
    · rename_i st1 hst1
      obtain ⟨h1, h2⟩ := soupStep_count _ _ _ _ _ _ _ _ hst1
      obtain ⟨h3, h4⟩ := ih (i + 1) st1 st' h
      exact ⟨by rw [h3, h1]; simp; omega, by rw [h4, h2]; simp; omega⟩

/-- Claim C4: an entry whose resolved path is not `/embeddable.html` is
filtered out, not failed: when every entry resolves but none is embeddable
the run returns normally with no node, no write, no archive and no
diagnostic; and in general the number of topic nodes and of archives equals
the number of *embeddable* entries, so each filtered entry contributes no
staging directory, no archive and no output node. -/
theorem c4_not_embeddable (models : List Model) (http : Http) (cwd sfx : String)
    (fs0 : FS) (rs : List String)
    (hres : exceptMapM http.finalUrl (models.map (fun m => m.preview_url)) = .ok rs) :
    ((∀ r ∈ rs, (urlparse r).path ≠ "/embeddable.html") →
      constructChannel models http cwd sfx fs0 =
        .ok ⟨[], (get_temp_dir cwd "temp" sfx fs0).2, []⟩) ∧
    (∀ st, constructChannel models http cwd sfx fs0 = .ok st →
      st.channel.length =
        ((rs.map urlparse).filter (fun u => u.path == "/embeddable.html")).length ∧
      st.zips.length =
        ((rs.map urlparse).filter (fun u => u.path == "/embeddable.html")).length) := by
  constructor
  · intro hall
    have hfil : (rs.map urlparse).filter (fun u => u.path == "/embeddable.html") = [] := by
      rw [List.filter_eq_nil_iff]
      intro u hu
      obtain ⟨r, hr, rfl⟩ := List.mem_map.mp hu
      simpa using hall r hr
    rw [constructChannel, hres]
    dsimp only
    rw [hfil]
    rfl
  · intro st hok
    rw [constructChannel, hres] at hok
    dsimp only at hok
    split at hok
    · exact Except.noConfusion hok
    · rename_i soups hsoups
      obtain ⟨h1, h2⟩ := soupLoop_count _ _ _ _ _ _ hok
      have hs : soups.length =
          ((rs.map urlparse).filter (fun u => u.path == "/embeddable.html")).length :=
        exceptMapM_ok_length _ _ _ hsoups
      have hrs : rs.length = models.length := by
        have := exceptMapM_ok_length _ _ _ hres
        simpa using this
      have hle : ((rs.map urlparse).filter (fun u => u.path == "/embeddable.html")).length ≤
          models.length := by
        calc ((rs.map urlparse).filter (fun u => u.path == "/embeddable.html")).length
            ≤ (rs.map urlparse).length := List.length_filter_le _ _
          _ = rs.length := by simp
          _ = models.length := hrs
      have hlen : (((rs.map urlparse).filter (fun u => u.path == "/embeddable.html")).zip
          (soups.zip models)).length =
          ((rs.map urlparse).filter (fun u => u.path == "/embeddable.html")).length := by
        rw [List.length_zip, List.length_zip, hs]
        omega
      exact ⟨by rw [h1, hlen]; simp, by rw [h2, hlen]; simp⟩

/-- A concrete network oracle whose single entry resolves to a
non-embeddable page. -/
def httpC4 : Http :=
  ⟨fun _ => .ok "https://x/not-embeddable.html",
   fun _ => .ok "",
   fun doc _ _ _ => doc,
   fun _ => .ok Json.null,
   fun _ => ⟨false, 404, [], none⟩⟩

/-- Witness for C4: one non-embeddable entry yields the empty, error-free run. -/
theorem c4_not_embeddable_witness :
    constructChannel [⟨7, "https://x/go?id=7", PyVal.pynone⟩] httpC4 "/cwd" "runC" ⟨[], []⟩ =
      .ok ⟨[], (get_temp_dir "/cwd" "temp" "runC" ⟨[], []⟩).2, []⟩ :=
  (c4_not_embeddable [⟨7, "https://x/go?id=7", PyVal.pynone⟩] httpC4 "/cwd" "runC" ⟨[], []⟩
      ["https://x/not-embeddable.html"] rfl).1
    (by intro r hr; rw [List.mem_singleton.mp hr]; decide)

theorem makedirsOk_files (d : String) (fs : FS) : (makedirsOk d fs).files = fs.files := by
  unfold makedirsOk
  split <;> rfl

theorem makedirsStrict_ok_files (d : String) (fs fs' : FS)
    (h : makedirsStrict d fs = .ok fs') : fs'.files = fs.files := by
  unfold makedirsStrict at h
  split at h
  · exact Except.noConfusion h
  · injection h with h'
    rw [← h']

theorem readFile_writeFile_ne (p q c : String) (fs : FS) (h : q ≠ p) :
    readFile p (writeFile q c fs).files = readFile p fs.files := by
  simp [writeFile, readFile_concat, h]

theorem readFile_writeFile_self (p c : String) (fs : FS) :
    readFile p (writeFile p c fs).files = some c := by
  simp [writeFile, readFile_concat]

theorem download_preserves (url dp : String) (resp : Response) (fs : FS) (p : String)
    (hne : dp ≠ p) :
    readFile p (download url dp resp fs).fs.files = readFile p fs.files := by
  unfold download
  split
  · rfl
  · split
    · rfl
    · split
      · rfl
      · split
        · simp only [writeFile]
          rw [readFile_concat, if_neg hne, makedirsOk_files]
        · simp only [writeFile]
          rw [readFile_concat, if_neg hne, readFile_concat, if_neg hne, makedirsOk_files]

theorem assetLoop_preserves (http : Http) (base soup_dir : String) :
    ∀ (aps : List Json) (fs fs' : FS),
      assetLoop http base soup_dir aps fs = .ok fs' →
      ∀ p, (∀ d b : String, soup_dir ++ "/" ++ d ++ "/" ++ b ≠ p) →
        readFile p fs'.files = readFile p fs.files := by
  intro aps
  induction aps with
  | nil =>
    intro fs fs' h p hp
    rw [assetLoop] at h
    injection h with h'
    rw [← h']
  | cons a rest ih =>
    intro fs fs' h p hp
    cases a with
    | str s =>
      rw [assetLoop] at h
      split at h
      · exact Except.noConfusion h
      · rw [ih _ _ h p hp]
        exact download_preserves _ _ _ _ p (hp (pyDirname s) (pyBasename s))
    | null => simp [assetLoop] at h
    | bool b => simp [assetLoop] at h
    | num n => simp [assetLoop] at h
    | arr xs => simp [assetLoop] at h
    | obj kvs => simp [assetLoop] at h

theorem index_path_ne (soup_dir d b : String) :
    soup_dir ++ "/" ++ d ++ "/" ++ b ≠ soup_dir ++ "/index.html" := by
  intro h
  have hd := congrArg String.data h
  simp only [String.data_append, List.append_assoc] at hd
  have h1 := List.append_cancel_left hd
  simp only [List.singleton_append, List.cons.injEq, true_and] at h1
  have hmem : '/' ∈ d.data ++ '/' :: b.data :=
    List.mem_append.mpr (Or.inr (List.mem_cons_self _ _))
  rw [h1] at hmem
  exact absurd hmem (by decide)

/-- Claim C5: on every successfully processed entry, the staging
directory's entry point is written under the fixed name `index.html`, and
its final content is the crawled document's string form with every
occurrence of `document.location.hash` replaced by the single-quoted
literal `'#<fragment>'` built from the fragment captured at resolution. -/
theorem c5_index_html (http : Http) (temp_dir : String) (i : Nat) (parsed : UrlParts)
    (soup : String) (model : Model) (st st' : RunState)
    (h : soupStep http temp_dir i parsed soup model st = .ok st') :
    readFile (soupDirName temp_dir i ++ "/index.html") st'.fs.files =
      some (pyReplace
        (http.staticAssets soup (soupDirName temp_dir i) (baseOf parsed) ["analytics.js"])
        "document.location.hash" ("'#" ++ parsed.fragment ++ "'")) := by
  rw [soupStep] at h
  rw [exceptBind_eq_ok] at h
  obtain ⟨fsA, hA, h⟩ := h
  rw [exceptBind_eq_ok] at h
  obtain ⟨fj, hJ, h⟩ := h
  rw [exceptBind_eq_ok] at h
  obtain ⟨fsC, hC, h⟩ := h
  rw [exceptBind_eq_ok] at h
  obtain ⟨kvs, hK, h⟩ := h
  rw [exceptBind_eq_ok] at h
  obtain ⟨aps, hAps, h⟩ := h
  rw [exceptBind_eq_ok] at h
  obtain ⟨fsE, hE, h⟩ := h
  injection h with h'
  rw [← h']
  dsimp only
  rw [assetLoop_preserves http (baseOf parsed) (soupDirName temp_dir i) aps _ fsE hE _
    (fun d b => index_path_ne (soupDirName temp_dir i) d b)]
  rw [readFile_writeFile_ne _ _ _ _
    (index_path_ne (soupDirName temp_dir i) (pyDirname parsed.fragment)
      (pyBasename parsed.fragment))]
  rw [makedirsStrict_ok_files _ _ _ hC]
  rw [readFile_writeFile_self]

/-- A concrete network oracle for the C5 witness. -/
def httpC5 : Http :=
  ⟨fun _ => .ok "https://x/embeddable.html#models/7.json",
   fun _ => .ok "<html><script>var h = document.location.hash;</script></html>",
   fun doc _ _ _ => doc,
   fun _ => .ok (Json.obj []),
   fun _ => ⟨true, 200, [("content-type", "application/json")], some Json.null⟩⟩

/-- Witness for C5 at a concrete entry. -/
theorem c5_index_html_witness :
    ∃ st', soupStep httpC5 "/cwd/temp/runD" 0
        ⟨"https", "x", "/embeddable.html", "models/7.json"⟩
        "<html><script>var h = document.location.hash;</script></html>"
        ⟨7, "p", PyVal.pynone⟩ ⟨[], ⟨[], []⟩, []⟩ = .ok st' ∧
      readFile (soupDirName "/cwd/temp/runD" 0 ++ "/index.html") st'.fs.files =
        some (pyReplace
          (httpC5.staticAssets "<html><script>var h = document.location.hash;</script></html>"
            (soupDirName "/cwd/temp/runD" 0)
            (baseOf ⟨"https", "x", "/embeddable.html", "models/7.json"⟩) ["analytics.js"])
          "document.location.hash" ("'#" ++ "models/7.json" ++ "'")) :=
  ⟨_, rfl, c5_index_html httpC5 "/cwd/temp/runD" 0
    ⟨"https", "x", "/embeddable.html", "models/7.json"⟩
    "<html><script>var h = document.location.hash;</script></html>"
    ⟨7, "p", PyVal.pynone⟩ ⟨[], ⟨[], []⟩, []⟩ _ rfl⟩

/-- Field lookup on a JSON value: `none` for a missing key or non-object. -/
def jGet : Json → String → Option Json
  | .obj kvs, k => jlook kvs k
  | _, _ => none

theorem requireObj_ok (v : Json) (kvs : List (String × Json))
    (h : requireObj v = .ok kvs) : v = Json.obj kvs := by
  cases v with
  | obj kvs' =>
    simp only [requireObj, Except.ok.injEq] at h
    rw [h]
  | null => exact Except.noConfusion h
  | bool b => exact Except.noConfusion h
  | num n => exact Except.noConfusion h
  | str s => exact Except.noConfusion h
  | arr xs => exact Except.noConfusion h

/-- Claim C6: when the root configuration JSON has no `title` key, the topic
node's title is the placeholder `follow redirect to get topic title` and the
app node's title is `follow redirect to get app title`; when it has no
`about` key, the app node's description is
`follow redirect to get app description` — in each case the entry still
succeeds and produces its node. -/
theorem c6_placeholder_titles (http : Http) (temp_dir : String) (i : Nat)
    (parsed : UrlParts) (soup : String) (model : Model) (st st' : RunState) (j : Json)
    (h : soupStep http temp_dir i parsed soup model st = .ok st')
    (hj : http.getJson (baseOf parsed ++ "/" ++ parsed.fragment) = .ok j) :
    (jGet j "title" = none →
      ∃ t : TopicNode, st'.channel = st.channel ++ [t] ∧
        t.title = Json.str "follow redirect to get topic title" ∧
        ∃ a : AppNode, t.children = [a] ∧
          a.title = Json.str "follow redirect to get app title") ∧
    (jGet j "about" = none →
      ∃ t : TopicNode, st'.channel = st.channel ++ [t] ∧
        ∃ a : AppNode, t.children = [a] ∧
          a.description = "follow redirect to get app description") := by
  rw [soupStep] at h
  rw [exceptBind_eq_ok] at h
  obtain ⟨fsA, hA, h⟩ := h
  rw [exceptBind_eq_ok] at h
  obtain ⟨fj, hJ, h⟩ := h
  rw [exceptBind_eq_ok] at h
  obtain ⟨fsC, hC, h⟩ := h
  rw [exceptBind_eq_ok] at h
  obtain ⟨kvs, hK, h⟩ := h
  rw [exceptBind_eq_ok] at h
  obtain ⟨aps, hAps, h⟩ := h
  rw [exceptBind_eq_ok] at h
  obtain ⟨fsE, hE, h⟩ := h
  injection h with h'
  rw [hj] at hJ
  injection hJ with hfj
  subst hfj
  have hobj := requireObj_ok _ _ hK
  subst hobj
  subst h'
  constructor
  · intro ht
    have ht' : jlook kvs "title" = none := by simpa [jGet] using ht
    refine ⟨_, rfl, ?_, _, rfl, ?_⟩
    · simp [ht']
    · simp [ht']
  · intro ha
    have ha' : jlook kvs "about" = none := by simpa [jGet] using ha
    refine ⟨_, rfl, _, rfl, ?_⟩
    simp [ha', pyToStr]

/-- A concrete network oracle for the C6 witness: the root configuration has
neither `title` nor `about`. -/
def httpC6 : Http :=
  ⟨fun _ => .ok "https://y/embeddable.html#interactives/8.json",
   fun _ => .ok "<html></html>",
   fun doc _ _ _ => doc,
   fun _ => .ok (Json.obj [("models", Json.arr [])]),
   fun _ => ⟨true, 200, [("content-type", "application/json")], some Json.null⟩⟩

/-- Witness for C6 at a concrete entry with a title-less, about-less root
configuration. -/
theorem c6_placeholder_titles_witness :
    ∃ st', soupStep httpC6 "/cwd/temp/runE" 0
        ⟨"https", "y", "/embeddable.html", "interactives/8.json"⟩ "<html></html>"
        ⟨8, "p", PyVal.pynone⟩ ⟨[], ⟨[], []⟩, []⟩ = .ok st' ∧
      (∃ t : TopicNode, st'.channel = [] ++ [t] ∧
        t.title = Json.str "follow redirect to get topic title" ∧
        ∃ a : AppNode, t.children = [a] ∧
          a.title = Json.str "follow redirect to get app title") ∧
      (∃ t : TopicNode, st'.channel = [] ++ [t] ∧
        ∃ a : AppNode, t.children = [a] ∧
          a.description = "follow redirect to get app description") := by
  refine ⟨_, rfl, ?_, ?_⟩
  · exact (c6_placeholder_titles httpC6 "/cwd/temp/runE" 0
      ⟨"https", "y", "/embeddable.html", "interactives/8.json"⟩ "<html></html>"
      ⟨8, "p", PyVal.pynone⟩ ⟨[], ⟨[], []⟩, []⟩ _
      (Json.obj [("models", Json.arr [])]) rfl rfl).1 rfl
  · exact (c6_placeholder_titles httpC6 "/cwd/temp/runE" 0
      ⟨"https", "y", "/embeddable.html", "interactives/8.json"⟩ "<html></html>"
      ⟨8, "p", PyVal.pynone⟩ ⟨[], ⟨[], []⟩, []⟩ _
      (Json.obj [("models", Json.arr [])]) rfl rfl).2 rfl

/-- Modelled from the spec: the canonical ordering used by the Packager
(`create_predictable_zip`, a ricecooker collaborator whose source is not in
this repository) — archive entries are sorted by relative path (ties broken
by content, which never matters for a real directory listing). -/
def zipEntryOrder (a b : String × String) : Prop :=
  a.1 < b.1 ∨ (a.1 = b.1 ∧ a.2 ≤ b.2)

instance : DecidableRel zipEntryOrder :=
  fun a b => decidable_of_iff (a.1 < b.1 ∨ (a.1 = b.1 ∧ a.2 ≤ b.2)) Iff.rfl

instance : IsTrans (String × String) zipEntryOrder := by
  refine ⟨fun a b c hab hbc => ?_⟩
  rcases hab with h1 | ⟨h1, h2⟩ <;> rcases hbc with h3 | ⟨h3, h4⟩
  · exact Or.inl (lt_trans h1 h3)
  · exact Or.inl (h3 ▸ h1)
  · exact Or.inl (h1 ▸ h3)
  · exact Or.inr ⟨h1.trans h3, le_trans h2 h4⟩

instance : IsTotal (String × String) zipEntryOrder := by
  refine ⟨fun a b => ?_⟩
  rcases lt_trichotomy a.1 b.1 with h | h | h
  · exact Or.inl (Or.inl h)
  · rcases le_total a.2 b.2 with h2 | h2
    · exact Or.inl (Or.inr ⟨h, h2⟩)
    · exact Or.inr (Or.inr ⟨h.symm, h2⟩)
  · exact Or.inr (Or.inl h)

instance : IsAntisymm (String × String) zipEntryOrder := by
  refine ⟨fun a b hab hba => ?_⟩
  rcases hab with h1 | ⟨h1, h2⟩ <;> rcases hba with h3 | ⟨h3, h4⟩
  · exact absurd (lt_trans h1 h3) (lt_irrefl _)
  · exact absurd h1 (h3 ▸ lt_irrefl _)
  · exact absurd h3 (h1 ▸ lt_irrefl _)
  · exact Prod.ext h1 (le_antisymm h2 h4)

/-- Modelled from the spec: `create_predictable_zip` — the archive produced
from a staged directory listing (relative path, content, on-disk mtime): the
entries are canonically sorted and every entry gets the same fixed
timestamp, so the result ignores both enumeration order and mtimes. -/
def create_predictable_zip (files : List (String × String)) (mtime : String → Nat) :
    List (String × String × Nat) :=
  ((List.insertionSort zipEntryOrder files).map (fun e => (e.1, e.2, 0)),
    mtime).1

/-- Modelled from the spec: the archive's byte serialization — a function of
the entry list alone. -/
def zipBytes (entries : List (String × String × Nat)) : String :=
  entries.foldl
    (fun acc e => acc ++ e.1 ++ "\x00" ++ e.2.1 ++ "\x00" ++ pyNatStr e.2.2 ++ "\x00") ""

/-- Claim C8 (spec-modelled Packager): packaging is deterministic — two
staged directories with the same relative paths and contents, however the
filesystem enumerates them and whatever their timestamps, produce the same
entry list and byte-identical archives. -/
theorem c8_zip_deterministic (l1 l2 : List (String × String)) (t1 t2 : String → Nat)
    (hperm : l1.Perm l2) :
    create_predictable_zip l1 t1 = create_predictable_zip l2 t2 ∧
    zipBytes (create_predictable_zip l1 t1) = zipBytes (create_predictable_zip l2 t2) := by
  have hsort : List.insertionSort zipEntryOrder l1 = List.insertionSort zipEntryOrder l2 :=
    List.eq_of_perm_of_sorted
      ((List.perm_insertionSort _ l1).trans (hperm.trans (List.perm_insertionSort _ l2).symm))
      (List.sorted_insertionSort _ l1) (List.sorted_insertionSort _ l2)
  constructor
  · rw [create_predictable_zip, create_predictable_zip, hsort]
  · rw [create_predictable_zip, create_predictable_zip, hsort]

/-- Witness for C8: the same two files enumerated in opposite orders with
different timestamps give the identical archive. -/
theorem c8_zip_deterministic_witness :
    create_predictable_zip [("models/7.json", "B"), ("index.html", "A")] (fun _ => 111) =
      create_predictable_zip [("index.html", "A"), ("models/7.json", "B")] (fun _ => 999) ∧
    zipBytes (create_predictable_zip [("models/7.json", "B"), ("index.html", "A")]
        (fun _ => 111)) =
      zipBytes (create_predictable_zip [("index.html", "A"), ("models/7.json", "B")]
        (fun _ => 999)) :=
  c8_zip_deterministic _ _ _ _ (by decide)
